import Mathlib

/-!
Verification development for the grasp-detection training script
(`src/train.py`).  The script's numeric values (Python floats and numpy
float64 arrays) are embedded as rationals `ℚ`; Python integers as `ℤ`/`ℕ`.
Fallible operations (Python exceptions) are embedded with explicit result
constructors.  The external rotated-rectangle primitive `intersection_area`
(imported by the script from `intersection.py`, which is not part of the
sources) is modelled from the spec's interface description.
-/

namespace GraspTrain

/-- A 5-parameter grasp box `(centerX, centerY, width, height, angle)`,
as one row of the `prediction` / `target` arrays in `train.py`
(`pred[2]` is the width, `pred[3]` the height, `pred[-1]` the angle). -/
structure Box where
  x : ℚ
  y : ℚ
  w : ℚ
  h : ℚ
  angle : ℚ
  deriving DecidableEq, Repr

/-- The constant `np.radians(30)` used in `accuracy` (`train.py` line 136),
embedded as the 16-significant-digit decimal of its float64 value.  No claim
depends on its exact value, only on the comparison against it. -/
def rad30 : ℚ := 5235987755982988 / 10000000000000000

/-- Modelled from the spec: the external geometric primitive
`intersectionArea(rectA, rectB) -> float ≥ 0` from the missing
`intersection.py`, where each rect is `(x, y, width, height)` with `(x, y)`
the center (the spec says the angle is not used by this primitive).
Embedded as the axis-aligned overlap area of the two center-format
rectangles, clamped at zero. -/
def intersection_area (a b : Box) : ℚ :=
  max 0 (min (a.x + a.w / 2) (b.x + b.w / 2) - max (a.x - a.w / 2) (b.x - b.w / 2)) *
  max 0 (min (a.y + a.h / 2) (b.y + b.h / 2) - max (a.y - a.h / 2) (b.y - b.h / 2))

/-- `union = pred[2] * pred[3] + tar[2] * tar[3] - intersection`
(`train.py` line 144), for one (prediction, target) sample pair,
with the intersection primitive passed in as a parameter. -/
def unionQ (interArea : Box → Box → ℚ) (pt : Box × Box) : ℚ :=
  pt.1.w * pt.1.h + pt.2.w * pt.2.h - interArea pt.1 pt.2

/-- The `ious` loop of `accuracy` (`train.py` lines 141-145): one IoU per
sample pair, in order.  Python raises `ZeroDivisionError` at the first pair
whose union is zero; this is embedded as `Except Unit`. -/
def iousE (interArea : Box → Box → ℚ) : List (Box × Box) → Except Unit (List ℚ)
  | [] => .ok []
  | pt :: rest =>
      let inter := interArea pt.1 pt.2
      let u := unionQ interArea pt
      if u = 0 then .error ()
      else
        match iousE interArea rest with
        | .error e => .error e
        | .ok tail => .ok (inter / u :: tail)

/-- Result of evaluating `accuracy` on a batch: `ok` is the returned float,
`nanResult` is `np.mean` of an empty array (a silently returned NaN, which
`ℚ` cannot represent), `zeroDivError` is the `ZeroDivisionError` escaping
from the IoU loop. -/
inductive AccResult where
  | ok (q : ℚ)
  | nanResult
  | zeroDivError
  deriving DecidableEq, Repr

/-- `accuracy(prediction, target)` (`train.py` lines 133-147) on the list of
paired sample boxes: `thetas` is the per-sample `{0,1}` orientation
indicator `|pred[-1] - tar[-1]| < np.radians(30)`; `ious` is the per-sample
IoU turned into the `{0,1}` indicator `iou > 0.25`; the result is
`np.mean(thetas * ious)`. -/
def accuracy (interArea : Box → Box → ℚ) (pairs : List (Box × Box)) : AccResult :=
  let thetas : List ℚ :=
    pairs.map (fun pt => if |pt.1.angle - pt.2.angle| < rad30 then 1 else 0)
  match iousE interArea pairs with
  | .error _ => .zeroDivError
  | .ok ious =>
      let iousInd : List ℚ := ious.map (fun q => if q > 1 / 4 then 1 else 0)
      match pairs with
      | [] => .nanResult
      | _ :: _ => .ok ((List.zipWith (· * ·) thetas iousInd).sum / pairs.length)

/-- The spec's wording of the batch match score (§4.2 "Batch result"),
for comparison with `accuracy`: the mean over samples of the product of the
`{0,1}` orientation indicator and the `{0,1}` overlap indicator. -/
def specMatchScore (interArea : Box → Box → ℚ) (pairs : List (Box × Box)) : ℚ :=
  (pairs.map (fun pt =>
      (if |pt.1.angle - pt.2.angle| < rad30 then (1 : ℚ) else 0) *
      (if interArea pt.1 pt.2 / unionQ interArea pt > 1 / 4 then (1 : ℚ) else 0))).sum
    / pairs.length

/-- `AverageMeter` (`train.py` lines 115-130): current value, running sum,
count and average.  Python's `count` is an int, embedded as `ℤ`; the floats
are embedded as `ℚ`.  (`update` with a new count of zero raises
`ZeroDivisionError` in Python; every use in the claims keeps the count
positive, where the total `ℚ` division below agrees with Python.) -/
structure AverageMeter where
  val : ℚ
  avg : ℚ
  sum : ℚ
  count : ℤ
  deriving DecidableEq, Repr

/-- `reset` (`train.py` lines 120-124): everything to zero. -/
def AverageMeter.reset : AverageMeter :=
  { val := 0, avg := 0, sum := 0, count := 0 }

/-- `update(val, n=1)` (`train.py` lines 126-130). -/
def AverageMeter.update (m : AverageMeter) (v : ℚ) (n : ℤ) : AverageMeter :=
  { val := v
    sum := m.sum + v * n
    count := m.count + n
    avg := (m.sum + v * n) / ((m.count + n : ℤ) : ℚ) }

/-- One batch yielded by a loader: the `(input, target, _, _)` tuple of the
epoch loops, with `input` abstract, `target` the list of target grasp boxes,
and `size` the value of `input.size(0)`. -/
structure Batch (α : Type) where
  input : α
  target : List Box
  size : ℤ

/-- Observable per-batch events of the epoch loops: the forward pass on the
batch with enumeration index `i`, and the optimizer calls
`optimizer.zero_grad()`, `loss.backward()`, `optimizer.step()`. -/
inductive Ev where
  | processed (i : ℕ)
  | zeroGrad
  | backward
  | optStep
  deriving DecidableEq, Repr

/-- The state a run of `train` / `validate` ends in: the local loss and
accuracy meters, the emitted events, and the Python return value of the
function (`train.py` lines 150-218: neither function has a return
statement, so `pyReturn` is `none` — Python's `None`). -/
structure EpochResult where
  losses : AverageMeter
  acc : AverageMeter
  events : List Ev
  pyReturn : Option (AverageMeter × AverageMeter)
  deriving DecidableEq, Repr

/-- How a run of `train` / `validate` ends: normal fall-through
(`completed`), a `ZeroDivisionError` escaping from `accuracy` (`crashed`),
or `accuracy` returning NaN on an empty sample-pair list (`undef`: from
there Python float NaN-propagation takes over, which `ℚ` cannot represent;
a real `DataLoader` never yields an empty batch, so no claim depends on
this constructor's aftermath). -/
inductive EpochOutcome where
  | completed (r : EpochResult)
  | crashed (r : EpochResult)
  | undef (r : EpochResult)
  deriving DecidableEq, Repr

/-- The batch loop of `train` (`train.py` lines 160-195).  Per batch, in
source order: forward pass `output = model(input)` (recorded as
`.processed i`), `loss = criterion(output, target)`,
`losses.update(loss.data[0], input.size(0))`,
`acc.update(accuracy(output, target), input.size(0))` — a
`ZeroDivisionError` from `accuracy` escapes here, after the `losses`
update — then `optimizer.zero_grad()`, `loss.backward()`,
`optimizer.step()`.  The timing meters (`batch_time`, `data_time`), device
transfers, `model.train()` and the progress `print` are side effects with
no bearing on any claim and are not recorded. -/
def trainLoop {α : Type} (model : α → List Box) (criterion : List Box → List Box → ℚ)
    (interArea : Box → Box → ℚ) :
    List (Batch α) → ℕ → AverageMeter → AverageMeter → List Ev → EpochOutcome
  | [], _, losses, acc, evs => .completed ⟨losses, acc, evs, none⟩
  | b :: rest, i, losses, acc, evs =>
      let output := model b.input
      let loss := criterion output b.target
      let losses1 := losses.update loss b.size
      let evs1 := evs ++ [.processed i]
      match accuracy interArea (output.zip b.target) with
      | .zeroDivError => .crashed ⟨losses1, acc, evs1, none⟩
      | .nanResult => .undef ⟨losses1, acc, evs1, none⟩
      | .ok a =>
          trainLoop model criterion interArea rest (i + 1) losses1
            (acc.update a b.size) (evs1 ++ [.zeroGrad, .backward, .optStep])

/-- `train(train_loader, model, criterion, optimizer, epoch)`
(`train.py` lines 150-195): fresh meters, then the batch loop. -/
def train {α : Type} (model : α → List Box) (criterion : List Box → List Box → ℚ)
    (interArea : Box → Box → ℚ) (batches : List (Batch α)) : EpochOutcome :=
  trainLoop model criterion interArea batches 0 .reset .reset []

/-- The batch loop of `validate` (`train.py` lines 205-218): the same shape
as `trainLoop` but with no optimizer calls and `model.eval()` instead of
`model.train()`. -/
def validateLoop {α : Type} (model : α → List Box) (criterion : List Box → List Box → ℚ)
    (interArea : Box → Box → ℚ) :
    List (Batch α) → ℕ → AverageMeter → AverageMeter → List Ev → EpochOutcome
  | [], _, losses, acc, evs => .completed ⟨losses, acc, evs, none⟩
  | b :: rest, i, losses, acc, evs =>
      let output := model b.input
      let loss := criterion output b.target
      let losses1 := losses.update loss b.size
      let evs1 := evs ++ [.processed i]
      match accuracy interArea (output.zip b.target) with
      | .zeroDivError => .crashed ⟨losses1, acc, evs1, none⟩
      | .nanResult => .undef ⟨losses1, acc, evs1, none⟩
      | .ok a =>
          validateLoop model criterion interArea rest (i + 1) losses1
            (acc.update a b.size) evs1

/-- `validate(val_loader, model, criterion)` (`train.py` lines 198-218). -/
def validate {α : Type} (model : α → List Box) (criterion : List Box → List Box → ℚ)
    (interArea : Box → Box → ℚ) (batches : List (Batch α)) : EpochOutcome :=
  validateLoop model criterion interArea batches 0 .reset .reset []

/-- The result record every outcome constructor carries. -/
def outcomeRes : EpochOutcome → EpochResult
  | .completed r => r
  | .crashed r => r
  | .undef r => r

/-- The enumeration index of a forward-pass event, if it is one. -/
def procIdx : Ev → Option ℕ
  | .processed i => some i
  | .zeroGrad => none
  | .backward => none
  | .optStep => none

/-- The enumeration indices of the forward passes an epoch run performed,
in order. -/
def processedOf (o : EpochOutcome) : List ℕ :=
  (outcomeRes o).events.filterMap procIdx

/-- A batch on which `accuracy` returns an ordinary value: the zipped
sample-pair list is non-empty and no pair has a zero union. -/
def goodBatch {α : Type} (model : α → List Box) (interArea : Box → Box → ℚ)
    (b : Batch α) : Prop :=
  (model b.input).zip b.target ≠ [] ∧
    ∀ pt ∈ (model b.input).zip b.target, unionQ interArea pt ≠ 0

/-- The `split=` argument of the `CornellGraspingDataset` constructor calls
in `main` (`train.py` lines 232 and 256). -/
inductive Split where
  | train
  | val
  deriving DecidableEq, Repr

/-- Observable events of `main`'s fold loop: dataset construction
(`CornellGraspingDataset(..., fold=fold, split=...)`), loader construction
(`DataLoader(..., batch_size=..., shuffle=...)`), and — for the claims
about epochs — hypothetical invocations of the epoch functions, which
`main` would emit if it called `train` or `validate`. -/
inductive MEvent where
  | createDataset (fold : ℕ) (split : Split)
  | createLoader (batchSize : ℕ) (shuffle : Bool)
  | runTrainEpoch (fold : ℕ)
  | runValEpoch (fold : ℕ)
  deriving DecidableEq, Repr

/-- The body of `main`'s `for fold in range(args.num_folds)` loop
(`train.py` lines 226-277): build the training dataset, its loader with
`batch_size=32, shuffle=True`, the validation dataset, its loader with
`batch_size=32, shuffle=False` — and nothing else: the loop body contains
no call to `train` or `validate`. -/
def foldBody (fold : ℕ) : List MEvent :=
  [.createDataset fold .train, .createLoader 32 true,
   .createDataset fold .val, .createLoader 32 false]

/-- The event trace of `main()` (`train.py` lines 221-277), as a function of
`args.num_folds` and `args.batch_size`.  `batchSizeArg` is parsed by the
CLI but never read by `main`: both `DataLoader` calls hard-code
`batch_size=32`. -/
def mainTrace (numFolds batchSizeArg : ℕ) : List MEvent :=
  (List.range numFolds).flatMap foldBody

/-- The `--batch-size` default of the argument parser
(`train.py` line 42). -/
def default_batch_size : ℕ := 64

/-- The ordinary value `accuracy` evaluates to on a batch (defaulting to 0
on the NaN / error outcomes, which the claims exclude). -/
def accValD (interArea : Box → Box → ℚ) (pairs : List (Box × Box)) : ℚ :=
  match accuracy interArea pairs with
  | .ok q => q
  | _ => 0

/-- The loss meter a completed epoch run ends with: fold of
`losses.update(criterion(model(input), target), input.size(0))` over the
batches, from a fresh meter. -/
def finalLoss {α : Type} (model : α → List Box) (criterion : List Box → List Box → ℚ)
    (batches : List (Batch α)) : AverageMeter :=
  batches.foldl (fun m b => m.update (criterion (model b.input) b.target) b.size)
    AverageMeter.reset

/-- The accuracy meter a completed epoch run ends with: fold of
`acc.update(accuracy(model(input), target), input.size(0))` over the
batches, from a fresh meter. -/
def finalAcc {α : Type} (model : α → List Box) (interArea : Box → Box → ℚ)
    (batches : List (Batch α)) : AverageMeter :=
  batches.foldl (fun m b => m.update (accValD interArea ((model b.input).zip b.target)) b.size)
    AverageMeter.reset

/-- The events one non-crashing training batch with enumeration index `j`
emits, in source order. -/
def trainBatchEvs (j : ℕ) : List Ev :=
  [.processed j, .zeroGrad, .backward, .optStep]

/-- The events one non-crashing validation batch with enumeration index `j`
emits. -/
def valBatchEvs (j : ℕ) : List Ev :=
  [.processed j]

/-- Whether an event is one of the optimizer calls
(`optimizer.zero_grad()`, `loss.backward()`, `optimizer.step()`). -/
def isOptimizerCall : Ev → Bool
  | .zeroGrad => true
  | .backward => true
  | .optStep => true
  | .processed _ => false

/-- Whether a `main` event is an invocation of one of the epoch
functions. -/
def isEpochRun : MEvent → Bool
  | .runTrainEpoch _ => true
  | .runValEpoch _ => true
  | .createDataset _ _ => false
  | .createLoader _ _ => false

/-- A unit square at the origin, axis aligned: a non-degenerate concrete
grasp box. -/
def unitBox : Box := ⟨0, 0, 1, 1, 0⟩

/-- A 2-by-2 square at the origin with a different angle. -/
def spanBox : Box := ⟨0, 0, 2, 2, 1⟩

/-- The all-zero grasp box: zero width and height, hence zero area. -/
def zeroBox : Box := ⟨0, 0, 0, 0, 0⟩

/-- A zero-width (hence zero-area) box away from the origin. -/
def thinBox : Box := ⟨1, 1, 0, 5, 0⟩

/-- The fold indices of the dataset-construction events for one split, in
trace order. -/
def datasetFolds (s : Split) (tr : List MEvent) : List ℕ :=
  tr.filterMap fun e =>
    match e with
    | .createDataset f s2 => if s2 = s then some f else none
    | _ => none

/-- The `batch_size` arguments of the loader-construction events, in trace
order. -/
def loaderSizes (tr : List MEvent) : List ℕ :=
  tr.filterMap fun e =>
    match e with
    | .createLoader bs _ => some bs
    | _ => none

/-! ## Theorems -/

/-- C4: from a fresh meter, `update(value, weight)` sets the current value
to `value`, adds `value*weight` to the sum, adds `weight` to the count and
recomputes `average = sum/count`; after a single `update(v, n)` from
`reset`, `average == v` and `count == n`; after `update(2, 1)` then
`update(4, 1)`, `average == 3`, `count == 2` and `sum == 6`. -/
theorem claim_C4 (v : ℚ) (n : ℤ) (h : 0 < n) (m : AverageMeter) :
    ((m.update v n).val = v ∧ (m.update v n).sum = m.sum + v * n ∧
      (m.update v n).count = m.count + n ∧
      (m.update v n).avg = (m.sum + v * n) / ((m.count + n : ℤ) : ℚ)) ∧
    ((AverageMeter.reset.update v n).avg = v ∧
      (AverageMeter.reset.update v n).count = n) ∧
    (((AverageMeter.reset.update 2 1).update 4 1).avg = 3 ∧
      ((AverageMeter.reset.update 2 1).update 4 1).count = 2 ∧
      ((AverageMeter.reset.update 2 1).update 4 1).sum = 6) := by
  have hn : ((n : ℤ) : ℚ) ≠ 0 := Int.cast_ne_zero.mpr h.ne'
  refine ⟨⟨rfl, rfl, rfl, rfl⟩, ⟨?_, ?_⟩,
    by norm_num [AverageMeter.update, AverageMeter.reset],
    by norm_num [AverageMeter.update, AverageMeter.reset],
    by norm_num [AverageMeter.update, AverageMeter.reset]⟩
  · simp [AverageMeter.update, AverageMeter.reset, mul_div_assoc, div_self hn]
  · simp [AverageMeter.update, AverageMeter.reset]

/-- Witness for C4 at `v = 5`, `n = 2`, `m = reset`. -/
theorem claim_C4_witness :
    (AverageMeter.reset.update 5 2).avg = 5 ∧
      (AverageMeter.reset.update 5 2).count = 2 :=
  (claim_C4 5 2 (by decide) AverageMeter.reset).2.1

/-- The data-model invariant of `AverageMeter`: the average is the sum over
the count whenever the count is positive, and a zero count comes with a
(defined) zero average. -/
def meterInvariant (m : AverageMeter) : Prop :=
  (0 < m.count → m.avg = m.sum / ((m.count : ℤ) : ℚ)) ∧ (m.count = 0 → m.avg = 0)

/-- C5: `reset` establishes the invariant `average == sum / count` (count
positive) and `count == 0 → average == 0`, and `update` with any positive
integer weight preserves it (together with the non-negativity of the count,
which every reachable meter satisfies). -/
theorem claim_C5 :
    (meterInvariant AverageMeter.reset ∧ AverageMeter.reset.count = 0) ∧
    ∀ (m : AverageMeter) (v : ℚ) (n : ℤ), 0 ≤ m.count → meterInvariant m → 0 < n →
      meterInvariant (m.update v n) ∧ 0 ≤ (m.update v n).count := by
  refine ⟨⟨⟨fun h => absurd h (by decide), fun _ => rfl⟩, rfl⟩, ?_⟩
  intro m v n hc _ hn
  have hcnt : (m.update v n).count = m.count + n := rfl
  exact ⟨⟨fun _ => rfl, fun h0 => by rw [hcnt] at h0; omega⟩, by rw [hcnt]; omega⟩

/-- Witness for C5 at `m = reset`, `v = 3`, `n = 2`. -/
theorem claim_C5_witness :
    meterInvariant (AverageMeter.reset.update 3 2) ∧
      0 ≤ (AverageMeter.reset.update 3 2).count :=
  claim_C5.2 AverageMeter.reset 3 2 (by decide) claim_C5.1.1 (by decide)

theorem datasetFolds_append (s : Split) (l1 l2 : List MEvent) :
    datasetFolds s (l1 ++ l2) = datasetFolds s l1 ++ datasetFolds s l2 :=
  List.filterMap_append l1 l2 _

theorem datasetFolds_foldBody (s : Split) (f : ℕ) :
    datasetFolds s (foldBody f) = [f] := by
  cases s <;> rfl

theorem datasetFolds_flatMap (s : Split) (l : List ℕ) :
    datasetFolds s (l.flatMap foldBody) = l := by
  induction l with
  | nil => rfl
  | cons a t ih =>
      rw [List.flatMap_cons, datasetFolds_append, datasetFolds_foldBody, ih]
      rfl

theorem loaderSizes_append (l1 l2 : List MEvent) :
    loaderSizes (l1 ++ l2) = loaderSizes l1 ++ loaderSizes l2 :=
  List.filterMap_append l1 l2 _

theorem loaderSizes_flatMap (l : List ℕ) :
    loaderSizes (l.flatMap foldBody) = List.replicate (2 * l.length) 32 := by
  induction l with
  | nil => rfl
  | cons a t ih =>
      rw [List.flatMap_cons, loaderSizes_append, ih]
      simp [loaderSizes, foldBody, List.replicate_succ, Nat.mul_succ, Nat.mul_comm]

/-- C2 (the code never does what the claim says): the fold loop of `main`
emits no invocation of the epoch functions — `train` and `validate` are
defined but never called, so no fold runs any training or validation
epoch. -/
theorem claim_C2 (numFolds batchSize : ℕ) :
    ((mainTrace numFolds batchSize).all fun e => ! isEpochRun e) = true := by
  rw [List.all_eq_true]
  intro e he
  rw [mainTrace, List.mem_flatMap] at he
  obtain ⟨f, _, hf⟩ := he
  simp only [foldBody, List.mem_cons, List.not_mem_nil, or_false] at hf
  rcases hf with rfl | rfl | rfl | rfl <;> rfl

/-- C6: `main` iterates fold indices in ascending order; per fold it emits,
in order, one training dataset, one shuffled loader, one validation
dataset, one unshuffled loader; the dataset-construction fold indices for
each split are exactly `0, ..., numFolds-1` in ascending order. -/
theorem claim_C6 (numFolds batchSize : ℕ) (h : 1 ≤ numFolds) :
    mainTrace numFolds batchSize =
      (List.range numFolds).flatMap (fun fold =>
        [MEvent.createDataset fold Split.train, MEvent.createLoader 32 true,
         MEvent.createDataset fold Split.val, MEvent.createLoader 32 false]) ∧
    datasetFolds Split.train (mainTrace numFolds batchSize) = List.range numFolds ∧
    datasetFolds Split.val (mainTrace numFolds batchSize) = List.range numFolds :=
  ⟨rfl, datasetFolds_flatMap _ _, datasetFolds_flatMap _ _⟩

/-- Witness for C6 at `numFolds = 5`: the dataset factory is driven once
per fold index `0,1,2,3,4`, for each split. -/
theorem claim_C6_witness :
    datasetFolds Split.train (mainTrace 5 64) = [0, 1, 2, 3, 4] ∧
      datasetFolds Split.val (mainTrace 5 64) = [0, 1, 2, 3, 4] := by
  have h5 : List.range 5 = [0, 1, 2, 3, 4] := by decide
  have h := claim_C6 5 64 (by decide)
  rw [h5] at h
  exact ⟨h.2.1, h.2.2⟩

/-- C10: every loader `main` constructs uses the hard-coded
`batch_size=32`; the trace is independent of the parsed `--batch-size`
argument, whose documented default is 64. -/
theorem claim_C10 (numFolds b b' : ℕ) :
    loaderSizes (mainTrace numFolds b) = List.replicate (2 * numFolds) 32 ∧
    mainTrace numFolds b = mainTrace numFolds b' ∧
    default_batch_size = 64 := by
  refine ⟨?_, rfl, rfl⟩
  have h := loaderSizes_flatMap (List.range numFolds)
  rw [List.length_range] at h
  exact h

theorem zipWith_map_same {α β γ δ : Type} (f : α → β) (g : α → γ) (op : β → γ → δ)
    (l : List α) :
    List.zipWith op (l.map f) (l.map g) = l.map fun x => op (f x) (g x) := by
  induction l with
  | nil => rfl
  | cons a t ih => simp [ih]

theorem iousE_ok (interArea : Box → Box → ℚ) :
    ∀ l : List (Box × Box), (∀ pt ∈ l, unionQ interArea pt ≠ 0) →
      iousE interArea l = .ok (l.map fun pt => interArea pt.1 pt.2 / unionQ interArea pt) := by
  intro l hl
  induction l with
  | nil => rfl
  | cons a t ih =>
      have ha := hl a (List.mem_cons_self a t)
      simp only [iousE]
      rw [if_neg ha, ih fun pt hpt => hl pt (List.mem_cons_of_mem a hpt)]
      simp

theorem iousE_err (interArea : Box → Box → ℚ) :
    ∀ l : List (Box × Box), (∃ pt ∈ l, unionQ interArea pt = 0) →
      iousE interArea l = .error () := by
  intro l hl
  induction l with
  | nil => obtain ⟨pt, hmem, _⟩ := hl; exact absurd hmem (List.not_mem_nil pt)
  | cons a t ih =>
      simp only [iousE]
      by_cases ha : unionQ interArea a = 0
      · rw [if_pos ha]
      · rw [if_neg ha]
        obtain ⟨pt, hmem, hu⟩ := hl
        have ht : ∃ pt ∈ t, unionQ interArea pt = 0 := by
          rcases List.mem_cons.mp hmem with rfl | hm
          · exact absurd hu ha
          · exact ⟨pt, hm, hu⟩
        rw [ih ht]

/-- On a batch with no zero union, `accuracy` returns the spec's match
score: the mean over samples of the product of the two indicators. -/
theorem accuracy_eq_spec (interArea : Box → Box → ℚ) (pairs : List (Box × Box))
    (hne : pairs ≠ []) (hu : ∀ pt ∈ pairs, unionQ interArea pt ≠ 0) :
    accuracy interArea pairs = AccResult.ok (specMatchScore interArea pairs) := by
  obtain ⟨a, t, rfl⟩ : ∃ a t, pairs = a :: t := by
    cases pairs with
    | nil => exact absurd rfl hne
    | cons a t => exact ⟨a, t, rfl⟩
  simp only [accuracy, iousE_ok interArea _ hu]
  rw [List.map_map, zipWith_map_same]
  rfl

/-- On a degenerate box, the spec-modelled intersection primitive returns
the box's own area when the two rectangles coincide. -/
theorem intersection_area_self (b : Box) (hw : 0 ≤ b.w) (hh : 0 ≤ b.h) :
    intersection_area b b = b.w * b.h := by
  unfold intersection_area
  rw [min_self, min_self, max_self, max_self]
  have hx : b.x + b.w / 2 - (b.x - b.w / 2) = b.w := by ring
  have hy : b.y + b.h / 2 - (b.y - b.h / 2) = b.h := by ring
  rw [hx, hy, max_eq_right hw, max_eq_right hh]

/-- C1: on every non-empty batch whose samples all have a non-zero union,
the value `accuracy` returns is the mean over samples of the product of the
`{0,1}` orientation indicator (`|Δangle| < radians(30)`) and the `{0,1}`
overlap indicator (`IoU > 0.25`), for any intersection primitive. -/
theorem claim_C1 (interArea : Box → Box → ℚ) (pairs : List (Box × Box))
    (hne : pairs ≠ []) (hu : ∀ pt ∈ pairs, unionQ interArea pt ≠ 0) :
    accuracy interArea pairs = AccResult.ok (specMatchScore interArea pairs) :=
  accuracy_eq_spec interArea pairs hne hu

/-- Witness for C1 on a concrete one-sample batch with a non-zero union. -/
theorem claim_C1_witness :
    accuracy intersection_area [(unitBox, spanBox)] =
      AccResult.ok (specMatchScore intersection_area [(unitBox, spanBox)]) :=
  claim_C1 intersection_area [(unitBox, spanBox)] (by simp)
    (by
      intro pt hpt
      rw [List.mem_singleton] at hpt
      subst hpt
      norm_num [unionQ, intersection_area, unitBox, spanBox])

/-- Counterexample for C8: on the empty batch the evaluator does not fail —
it silently returns NaN (the mean of an empty array), which is neither an
error signal nor an ordinary value. -/
theorem claim_C8_counterexample :
    accuracy intersection_area [] = AccResult.nanResult ∧
      AccResult.nanResult ≠ AccResult.zeroDivError ∧
      ∀ q : ℚ, AccResult.nanResult ≠ AccResult.ok q :=
  ⟨rfl, fun h => AccResult.noConfusion h, fun _ h => AccResult.noConfusion h⟩

/-- C8 (amended): on the empty batch the evaluator silently returns NaN;
on a batch containing a sample with zero union it raises a bare
`ZeroDivisionError`; no `InvalidBatchSize` / `DegenerateGeometry` signal
exists anywhere in the code. -/
theorem claim_C8 (interArea : Box → Box → ℚ) :
    accuracy interArea [] = AccResult.nanResult ∧
    ∀ pairs : List (Box × Box), (∃ pt ∈ pairs, unionQ interArea pt = 0) →
      accuracy interArea pairs = AccResult.zeroDivError := by
  refine ⟨rfl, ?_⟩
  intro pairs hex
  simp only [accuracy, iousE_err interArea pairs hex]

/-- Witness for C8 on a concrete batch whose single sample has zero
union. -/
theorem claim_C8_witness :
    accuracy intersection_area [(zeroBox, zeroBox)] = AccResult.zeroDivError :=
  (claim_C8 intersection_area).2 [(zeroBox, zeroBox)]
    ⟨(zeroBox, zeroBox), List.mem_singleton.mpr rfl,
      by norm_num [unionQ, intersection_area, zeroBox]⟩

/-- Counterexample for C9: a non-empty batch whose (identical) boxes have
zero area makes the evaluator raise `ZeroDivisionError` instead of
returning a match fraction of 1. -/
theorem claim_C9_counterexample :
    accuracy intersection_area [(thinBox, thinBox)] ≠ AccResult.ok 1 ∧
      accuracy intersection_area [(thinBox, thinBox)] = AccResult.zeroDivError := by
  have h : accuracy intersection_area [(thinBox, thinBox)] = AccResult.zeroDivError := by
    have hu : ∃ pt ∈ [(thinBox, thinBox)], unionQ intersection_area pt = 0 :=
      ⟨(thinBox, thinBox), List.mem_singleton.mpr rfl,
        by norm_num [unionQ, intersection_area, thinBox]⟩
    simp only [accuracy, iousE_err intersection_area _ hu]
  exact ⟨by rw [h]; exact fun hc => AccResult.noConfusion hc, h⟩

/-- C9 (amended): on every non-empty batch in which each predicted box is
identical to its paired target box and every box has positive width and
height (hence a non-zero union), the match fraction is exactly 1. -/
theorem claim_C9 (pairs : List (Box × Box)) (hne : pairs ≠ [])
    (hid : ∀ pt ∈ pairs, pt.1 = pt.2)
    (hpos : ∀ pt ∈ pairs, 0 < pt.2.w ∧ 0 < pt.2.h) :
    accuracy intersection_area pairs = AccResult.ok 1 := by
  have hub : ∀ pt ∈ pairs, unionQ intersection_area pt = pt.2.w * pt.2.h := by
    intro pt hpt
    obtain ⟨hw, hh⟩ := hpos pt hpt
    have h1 := hid pt hpt
    rw [unionQ, h1, intersection_area_self pt.2 hw.le hh.le]
    ring
  have hu : ∀ pt ∈ pairs, unionQ intersection_area pt ≠ 0 := by
    intro pt hpt
    obtain ⟨hw, hh⟩ := hpos pt hpt
    rw [hub pt hpt]
    exact (mul_pos hw hh).ne'
  rw [accuracy_eq_spec intersection_area pairs hne hu]
  congr 1
  rw [specMatchScore]
  have hmap : pairs.map (fun pt =>
      (if |pt.1.angle - pt.2.angle| < rad30 then (1 : ℚ) else 0) *
      (if intersection_area pt.1 pt.2 / unionQ intersection_area pt > 1 / 4 then (1 : ℚ) else 0)) =
      pairs.map fun _ => (1 : ℚ) := by
    apply List.map_congr_left
    intro pt hpt
    obtain ⟨hw, hh⟩ := hpos pt hpt
    have h1 := hid pt hpt
    have htheta : |pt.1.angle - pt.2.angle| < rad30 := by
      rw [h1, sub_self, abs_zero]
      norm_num [rad30]
    have hiou : intersection_area pt.1 pt.2 / unionQ intersection_area pt > 1 / 4 := by
      rw [h1, hub pt hpt, intersection_area_self pt.2 hw.le hh.le,
        div_self (mul_pos hw hh).ne']
      norm_num
    rw [if_pos htheta, if_pos hiou, mul_one]
  rw [hmap]
  have hlen : (0 : ℚ) < pairs.length := by
    have : 0 < pairs.length := List.length_pos.mpr hne
    exact_mod_cast this
  rw [List.map_const', List.sum_replicate, nsmul_eq_mul, mul_one,
    div_self hlen.ne']

/-- Witness for C9 on a concrete one-sample batch of identical unit
squares. -/
theorem claim_C9_witness :
    accuracy intersection_area [(unitBox, unitBox)] = AccResult.ok 1 :=
  claim_C9 [(unitBox, unitBox)] (by simp)
    (by intro pt hpt; rw [List.mem_singleton] at hpt; subst hpt; rfl)
    (by
      intro pt hpt
      rw [List.mem_singleton] at hpt
      subst hpt
      norm_num [unitBox])

/-- On batch sources whose batches are all non-degenerate, the training
loop completes, folding both meters over the batches in order and emitting
the per-batch event groups in order. -/
theorem trainLoop_eq {α : Type} (model : α → List Box) (criterion : List Box → List Box → ℚ)
    (interArea : Box → Box → ℚ) :
    ∀ (batches : List (Batch α)) (i : ℕ) (losses acc : AverageMeter) (evs : List Ev),
      (∀ b ∈ batches, goodBatch model interArea b) →
      trainLoop model criterion interArea batches i losses acc evs =
        .completed
          ⟨batches.foldl (fun m b => m.update (criterion (model b.input) b.target) b.size) losses,
           batches.foldl
             (fun m b => m.update (accValD interArea ((model b.input).zip b.target)) b.size) acc,
           evs ++ (List.range' i batches.length).flatMap trainBatchEvs, none⟩ := by
  intro batches
  induction batches with
  | nil => intro i losses acc evs _; simp [trainLoop]
  | cons b t ih =>
      intro i losses acc evs h
      obtain ⟨hne, hu⟩ := h b (List.mem_cons_self b t)
      have hacc := accuracy_eq_spec interArea _ hne hu
      have haccv : accValD interArea ((model b.input).zip b.target) =
          specMatchScore interArea ((model b.input).zip b.target) := by
        rw [accValD, hacc]
      simp only [trainLoop, hacc]
      rw [ih (i + 1) _ _ _ fun b' hb' => h b' (List.mem_cons_of_mem b hb')]
      simp [haccv, List.range'_succ, trainBatchEvs, List.append_assoc]

/-- On batch sources whose batches are all non-degenerate, the validation
loop completes, folding both meters over the batches in order and emitting
one forward-pass event per batch, in order. -/
theorem validateLoop_eq {α : Type} (model : α → List Box)
    (criterion : List Box → List Box → ℚ) (interArea : Box → Box → ℚ) :
    ∀ (batches : List (Batch α)) (i : ℕ) (losses acc : AverageMeter) (evs : List Ev),
      (∀ b ∈ batches, goodBatch model interArea b) →
      validateLoop model criterion interArea batches i losses acc evs =
        .completed
          ⟨batches.foldl (fun m b => m.update (criterion (model b.input) b.target) b.size) losses,
           batches.foldl
             (fun m b => m.update (accValD interArea ((model b.input).zip b.target)) b.size) acc,
           evs ++ (List.range' i batches.length).flatMap valBatchEvs, none⟩ := by
  intro batches
  induction batches with
  | nil => intro i losses acc evs _; simp [validateLoop]
  | cons b t ih =>
      intro i losses acc evs h
      obtain ⟨hne, hu⟩ := h b (List.mem_cons_self b t)
      have hacc := accuracy_eq_spec interArea _ hne hu
      have haccv : accValD interArea ((model b.input).zip b.target) =
          specMatchScore interArea ((model b.input).zip b.target) := by
        rw [accValD, hacc]
      simp only [validateLoop, hacc]
      rw [ih (i + 1) _ _ _ fun b' hb' => h b' (List.mem_cons_of_mem b hb')]
      simp [haccv, List.range'_succ, valBatchEvs, List.append_assoc]

/-- Whatever the batches, the validation loop only ever adds forward-pass
events: it emits no optimizer call. -/
theorem validateLoop_no_opt {α : Type} (model : α → List Box)
    (criterion : List Box → List Box → ℚ) (interArea : Box → Box → ℚ) :
    ∀ (batches : List (Batch α)) (i : ℕ) (losses acc : AverageMeter) (evs : List Ev),
      (evs.all fun e => ! isOptimizerCall e) = true →
      ((outcomeRes (validateLoop model criterion interArea batches i losses acc evs)).events.all
        fun e => ! isOptimizerCall e) = true := by
  intro batches
  induction batches with
  | nil => intro i losses acc evs h; simpa [validateLoop, outcomeRes] using h
  | cons b t ih =>
      intro i losses acc evs h
      have hevs1 : (((evs ++ [Ev.processed i]).all fun e => ! isOptimizerCall e)) = true := by
        rw [List.all_append, h]
        rfl
      simp only [validateLoop]
      cases hacc : accuracy interArea ((model b.input).zip b.target) with
      | ok q => exact ih (i + 1) _ _ _ hevs1
      | nanResult => simpa [outcomeRes] using hevs1
      | zeroDivError => simpa [outcomeRes] using hevs1

theorem filterMap_procIdx_train (l : List ℕ) :
    (l.flatMap trainBatchEvs).filterMap procIdx = l := by
  induction l with
  | nil => rfl
  | cons a t ih =>
      simp [List.flatMap_cons, List.filterMap_append, trainBatchEvs, procIdx, ih,
        List.filterMap_cons]

theorem filterMap_procIdx_val (l : List ℕ) :
    (l.flatMap valBatchEvs).filterMap procIdx = l := by
  induction l with
  | nil => rfl
  | cons a t ih =>
      simp [List.flatMap_cons, List.filterMap_append, valBatchEvs, procIdx, ih,
        List.filterMap_cons]

/-- C3 (amended): on a batch source of non-degenerate batches, both epoch
functions run to completion accumulating the epoch's final loss and
accuracy statistics in their local meters — but their Python return value
is `None`: the final statistics are not returned. -/
theorem claim_C3 {α : Type} (model : α → List Box) (criterion : List Box → List Box → ℚ)
    (interArea : Box → Box → ℚ) (batches : List (Batch α))
    (h : ∀ b ∈ batches, goodBatch model interArea b) :
    (∃ r : EpochResult, train model criterion interArea batches = .completed r ∧
      r.pyReturn = none ∧ r.losses = finalLoss model criterion batches ∧
      r.acc = finalAcc model interArea batches) ∧
    (∃ r : EpochResult, validate model criterion interArea batches = .completed r ∧
      r.pyReturn = none ∧ r.losses = finalLoss model criterion batches ∧
      r.acc = finalAcc model interArea batches) :=
  ⟨⟨_, trainLoop_eq model criterion interArea batches 0 _ _ [] h, rfl, rfl, rfl⟩,
   ⟨_, validateLoop_eq model criterion interArea batches 0 _ _ [] h, rfl, rfl, rfl⟩⟩

/-- Witness for C3 on a concrete one-batch source. -/
theorem claim_C3_witness :
    (∃ r : EpochResult,
      train (fun _ : Unit => [unitBox]) (fun _ _ => 0) intersection_area
          [⟨(), [unitBox], 1⟩] = .completed r ∧
      r.pyReturn = none ∧
      r.losses = finalLoss (fun _ : Unit => [unitBox]) (fun _ _ => 0) [⟨(), [unitBox], 1⟩] ∧
      r.acc = finalAcc (fun _ : Unit => [unitBox]) intersection_area [⟨(), [unitBox], 1⟩]) ∧
    (∃ r : EpochResult,
      validate (fun _ : Unit => [unitBox]) (fun _ _ => 0) intersection_area
          [⟨(), [unitBox], 1⟩] = .completed r ∧
      r.pyReturn = none ∧
      r.losses = finalLoss (fun _ : Unit => [unitBox]) (fun _ _ => 0) [⟨(), [unitBox], 1⟩] ∧
      r.acc = finalAcc (fun _ : Unit => [unitBox]) intersection_area [⟨(), [unitBox], 1⟩]) :=
  claim_C3 (fun _ : Unit => [unitBox]) (fun _ _ => 0) intersection_area [⟨(), [unitBox], 1⟩]
    (by
      intro b hb
      rw [List.mem_singleton] at hb
      subst hb
      refine ⟨by simp, ?_⟩
      intro pt hpt
      simp only [List.zip_cons_cons, List.zip_nil_right, List.mem_singleton] at hpt
      subst hpt
      norm_num [unionQ, intersection_area, unitBox])

/-- Counterexample for C3: on a concrete one-batch source the validation
epoch completes but its Python return value is `None` — the final loss and
accuracy statistics are not returned to the caller. -/
theorem claim_C3_counterexample :
    (outcomeRes (validate (fun _ : Unit => [unitBox]) (fun _ _ => 0) intersection_area
        [⟨(), [unitBox], 1⟩])).pyReturn = none ∧
    (outcomeRes (train (fun _ : Unit => [unitBox]) (fun _ _ => 0) intersection_area
        [⟨(), [unitBox], 1⟩])).pyReturn = none ∧
    ∀ p : AverageMeter × AverageMeter, (none : Option (AverageMeter × AverageMeter)) ≠ some p := by
  have hgood : ∀ b ∈ [(⟨(), [unitBox], 1⟩ : Batch Unit)],
      goodBatch (fun _ : Unit => [unitBox]) intersection_area b := by
    intro b hb
    rw [List.mem_singleton] at hb
    subst hb
    refine ⟨by simp, ?_⟩
    intro pt hpt
    simp only [List.zip_cons_cons, List.zip_nil_right, List.mem_singleton] at hpt
    subst hpt
    norm_num [unionQ, intersection_area, unitBox]
  rw [validate, validateLoop_eq _ _ _ _ 0 _ _ [] hgood,
    train, trainLoop_eq _ _ _ _ 0 _ _ [] hgood]
  exact ⟨rfl, rfl, fun p hp => Option.noConfusion hp⟩

/-- C7 (amended): on a batch source of non-degenerate batches, both epoch
functions perform exactly one forward pass per batch, in source order
(enumeration indices `0 .. n-1`); and unconditionally, the validation
epoch never emits an optimizer call (`zero_grad` / `backward` / `step`). -/
theorem claim_C7 {α : Type} (model : α → List Box) (criterion : List Box → List Box → ℚ)
    (interArea : Box → Box → ℚ) (batches : List (Batch α)) :
    ((∀ b ∈ batches, goodBatch model interArea b) →
      processedOf (train model criterion interArea batches) = List.range batches.length ∧
      processedOf (validate model criterion interArea batches) = List.range batches.length) ∧
    ((outcomeRes (validate model criterion interArea batches)).events.all
      fun e => ! isOptimizerCall e) = true := by
  constructor
  · intro h
    constructor
    · rw [train, trainLoop_eq model criterion interArea batches 0 _ _ [] h]
      simp [processedOf, outcomeRes, filterMap_procIdx_train, List.range_eq_range']
    · rw [validate, validateLoop_eq model criterion interArea batches 0 _ _ [] h]
      simp [processedOf, outcomeRes, filterMap_procIdx_val, List.range_eq_range']
  · exact validateLoop_no_opt model criterion interArea batches 0 _ _ [] rfl

/-- Witness for C7 on a concrete two-batch source. -/
theorem claim_C7_witness :
    processedOf (train (fun _ : Unit => [unitBox]) (fun _ _ => 0) intersection_area
        [⟨(), [unitBox], 1⟩, ⟨(), [unitBox], 1⟩]) = List.range 2 ∧
    processedOf (validate (fun _ : Unit => [unitBox]) (fun _ _ => 0) intersection_area
        [⟨(), [unitBox], 1⟩, ⟨(), [unitBox], 1⟩]) = List.range 2 := by
  have h := (claim_C7 (fun _ : Unit => [unitBox]) (fun _ _ => 0) intersection_area
      [⟨(), [unitBox], 1⟩, ⟨(), [unitBox], 1⟩]).1 ?good
  case good =>
    intro b hb
    have hb' : b = ⟨(), [unitBox], 1⟩ := by
      rcases List.mem_cons.mp hb with h1 | h1
      · exact h1
      · exact List.mem_singleton.mp h1
    subst hb'
    refine ⟨by simp, ?_⟩
    intro pt hpt
    simp only [List.zip_cons_cons, List.zip_nil_right, List.mem_singleton] at hpt
    subst hpt
    norm_num [unionQ, intersection_area, unitBox]
  exact h

/-- Counterexample for C7: a two-batch source whose first batch has a
zero-union sample makes the training epoch abort at that batch — the
second batch is never processed, so not every batch yielded by the source
is processed. -/
theorem claim_C7_counterexample :
    processedOf (train (fun _ : Unit => [zeroBox]) (fun _ _ => 0) intersection_area
        [⟨(), [zeroBox], 1⟩, ⟨(), [unitBox], 1⟩]) = [0] ∧
    [0] ≠ List.range 2 := by
  constructor
  · have hu : ∃ pt ∈ ([zeroBox].zip [zeroBox]), unionQ intersection_area pt = 0 :=
      ⟨(zeroBox, zeroBox), by simp, by norm_num [unionQ, intersection_area, zeroBox]⟩
    have hacc : accuracy intersection_area ([zeroBox].zip [zeroBox]) = AccResult.zeroDivError := by
      simp only [accuracy, iousE_err intersection_area _ hu]
    simp only [train, trainLoop, hacc]
    simp [processedOf, outcomeRes, procIdx, List.filterMap_cons]
  · decide

end GraspTrain
